import Mathlib

/-!
# Verification of the Web-Scrapper extraction core

A shallow embedding of `web-scraper-app.py` (the `download_image` and
`scrape_website` functions) together with models of the library routines
they call:

* `urllib.parse.urljoin` (CPython ≥ 3.6 semantics, modelled over `List Char`,
  including scheme extraction, netloc/query/fragment splitting, the `;`
  parameter split, the `uses_relative` / `uses_netloc` / `uses_params` scheme
  tables, and the segment-resolution loop with its interior-empty-segment
  filtering);
* `requests.get` / `Response.raise_for_status` (raises `requests.HTTPError`,
  a `RequestException`, exactly for status codes 400–599, with the documented
  "NNN Client Error: reason for url: url" message);
* the BeautifulSoup queries used by the code: `find_all(tag)`,
  `find_all(class_=c)`, `Tag.get(attr[, default])` and
  `Tag.get_text(strip=True)` (which strips each descendant string
  individually, drops strings that become empty, and concatenates).

Effects (the network and the parser) are passed in explicitly as data, so
`scrape_website` becomes a total function of its inputs and of the world's
response; the `try/except` structure is mirrored by an `Except` computation.

All definitions are executable; theorems at the end settle the specification
claims.
-/

/-! ## Python string helpers -/

/-- Is `p` a (character-wise) prefix of `s`?  Written as plain structural
recursion on `p`; models Python `str.startswith`. -/
def isPreCL : List Char → List Char → Bool
  | [], _ => true
  | _ :: _, [] => false
  | d :: p, c :: s => if c = d then isPreCL p s else false

/-- Python `s.startswith(p)` on Lean strings. -/
def pyStartswith (s p : String) : Bool :=
  isPreCL p.toList s.toList

/-- The ASCII whitespace characters removed by Python `str.strip()`. -/
def pySpace (c : Char) : Bool :=
  c = ' ' ∨ c = '\t' ∨ c = '\n' ∨ c = '\r' ∨ c = '\x0b' ∨ c = '\x0c'

/-- Python `str.strip()` (ASCII whitespace). -/
def pyStrip (s : String) : String :=
  String.mk (((s.toList.dropWhile pySpace).reverse.dropWhile pySpace).reverse)

/-! ## A model of `urllib.parse` (CPython)

The functions below transcribe `urlsplit`, `urlparse`, `urlunsplit`,
`urlunparse` and `urljoin` from CPython's `Lib/urllib/parse.py` (modern 3.x
semantics), specialised to `allow_fragments=True` and to `str` input.
They operate on `List Char` so that every step is plain structural
recursion. -/

/-- Split a list at the first occurrence of `c`: `some (before, after)`,
or `none` when `c` does not occur.  Models `str.find`/`str.split(c, 1)`. -/
def splitAtFirst (c : Char) : List Char → Option (List Char × List Char)
  | [] => none
  | x :: xs =>
    if x = c then some ([], xs)
    else
      match splitAtFirst c xs with
      | some (pre, post) => some (x :: pre, post)
      | none => none

/-- Python `str.split(c)` (always at least one piece). -/
def splitOnChar (c : Char) : List Char → List (List Char)
  | [] => [[]]
  | x :: xs =>
    let r := splitOnChar c xs
    if x = c then [] :: r
    else
      match r with
      | h :: t => (x :: h) :: t
      | [] => [[x]]

/-- The characters allowed in a URL scheme (`scheme_chars` in CPython). -/
def schemeChar (c : Char) : Bool :=
  c.isAlpha || c.isDigit || c = '+' || c = '-' || c = '.'

/-- Scheme extraction from `urlsplit`: the text before the first `:` is a
scheme when it is nonempty, begins with an ASCII letter and consists of
scheme characters; the scheme is lowercased. -/
def splitScheme (url : List Char) : Option (List Char × List Char) :=
  match splitAtFirst ':' url with
  | some (pre, post) =>
    match pre with
    | [] => none
    | c :: rest =>
      if c.isAlpha && rest.all schemeChar then some ((c :: rest).map Char.toLower, post)
      else none
  | none => none

/-- `_splitnetloc`: take characters up to the first of `/`, `?`, `#`. -/
def netlocSpan : List Char → List Char × List Char
  | [] => ([], [])
  | c :: cs =>
    if c = '/' ∨ c = '?' ∨ c = '#' then ([], c :: cs)
    else
      let (a, b) := netlocSpan cs
      (c :: a, b)

/-- The result of `urlsplit`. -/
structure USplit where
  scheme : List Char
  netloc : List Char
  path : List Char
  query : List Char
  fragment : List Char
deriving DecidableEq, Repr

/-- `urllib.parse.urlsplit(url, defscheme)` with `allow_fragments=True`. -/
def urlsplitL (url : List Char) (defscheme : List Char) : USplit :=
  let (scheme, rest) :=
    match splitScheme url with
    | some (s, r) => (s, r)
    | none => (defscheme, url)
  let (netloc, rest) :=
    match rest with
    | '/' :: '/' :: r => netlocSpan r
    | _ => (([] : List Char), rest)
  let (rest, fragment) := (splitAtFirst '#' rest).getD (rest, [])
  let (path, query) := (splitAtFirst '?' rest).getD (rest, [])
  ⟨scheme, netloc, path, query, fragment⟩

/-- `_splitparams`: split the `;parameters` suffix off the last path
segment. -/
def splitParamsL (path : List Char) : List Char × List Char :=
  let segs := splitOnChar '/' path
  let last := segs.getLast?.getD []
  match splitAtFirst ';' last with
  | some (pre, post) => (List.intercalate ['/'] (segs.dropLast ++ [pre]), post)
  | none => (path, [])

/-- Schemes using relative-URL semantics (`uses_relative` in CPython). -/
def usesRelative : List (List Char) :=
  ["", "ftp", "http", "gopher", "nntp", "imap", "wais", "file", "https",
   "shttp", "mms", "prospero", "rtsp", "rtspu", "sftp", "svn", "svn+ssh",
   "ws", "wss"].map String.toList

/-- Schemes with a network location (`uses_netloc` in CPython). -/
def usesNetloc : List (List Char) :=
  ["", "ftp", "http", "gopher", "nntp", "telnet", "imap", "wais", "file",
   "mms", "https", "shttp", "snews", "prospero", "rtsp", "rtspu", "rsync",
   "svn", "svn+ssh", "sftp", "nfs", "git", "git+ssh", "ws", "wss"].map String.toList

/-- Schemes whose paths carry `;` parameters (`uses_params` in CPython). -/
def usesParams : List (List Char) :=
  ["", "ftp", "hdl", "prospero", "http", "imap", "https", "shttp", "rtsp",
   "rtspu", "sip", "sips", "mms", "sftp", "tel"].map String.toList

/-- The result of `urlparse` (adds the `params` component). -/
structure UParse where
  scheme : List Char
  netloc : List Char
  path : List Char
  params : List Char
  query : List Char
  fragment : List Char
deriving DecidableEq, Repr

/-- `urllib.parse.urlparse(url, defscheme)`. -/
def urlparseL (url : List Char) (defscheme : List Char) : UParse :=
  let s := urlsplitL url defscheme
  if usesParams.contains s.scheme ∧ s.path.contains ';' then
    let (p, prm) := splitParamsL s.path
    ⟨s.scheme, s.netloc, p, prm, s.query, s.fragment⟩
  else
    ⟨s.scheme, s.netloc, s.path, [], s.query, s.fragment⟩

/-- `urllib.parse.urlunsplit`. -/
def urlunsplitL (scheme netloc path query fragment : List Char) : List Char :=
  let url :=
    if netloc ≠ [] ∨ path.take 2 = ['/', '/'] then
      '/' :: '/' :: (netloc ++ (if path ≠ [] ∧ path.take 1 ≠ ['/'] then '/' :: path else path))
    else path
  let url := if scheme ≠ [] then scheme ++ ':' :: url else url
  let url := if query ≠ [] then url ++ '?' :: query else url
  if fragment ≠ [] then url ++ '#' :: fragment else url

/-- `urllib.parse.urlunparse`. -/
def urlunparseL (scheme netloc path params query fragment : List Char) : List Char :=
  urlunsplitL scheme netloc (if params ≠ [] then path ++ ';' :: params else path) query fragment

/-- Keep the first and last entries, dropping empty interior segments
(it models `segments[1:-1] = filter(None, segments[1:-1])`). -/
def filterMidAux : List (List Char) → List (List Char)
  | [] => []
  | [x] => [x]
  | x :: xs => if x = [] then filterMidAux xs else x :: filterMidAux xs

/-- See `filterMidAux`; the head is always kept. -/
def filterMiddle : List (List Char) → List (List Char)
  | [] => []
  | [x] => [x]
  | x :: xs => x :: filterMidAux xs

/-- The `urljoin` segment-resolution loop: `.` is dropped, `..` pops the
accumulator (silently when it is empty), other segments are appended. -/
def resolveSegs (acc : List (List Char)) : List (List Char) → List (List Char)
  | [] => acc
  | s :: rest =>
    if s = ['.', '.'] then resolveSegs acc.dropLast rest
    else if s = ['.'] then resolveSegs acc rest
    else resolveSegs (acc ++ [s]) rest

/-- The path computation of `urljoin`'s merge branch: split the base path,
drop its last segment when nonempty, join with the relative path's
segments (filtering empty interior segments), resolve `.`/`..`, rejoin
(`'/'.join(resolved_path) or '/'`). -/
def urljoinMergePath (bpath upath : List Char) : List Char :=
  let baseParts := splitOnChar '/' bpath
  let baseParts := if baseParts.getLast?.getD [] ≠ [] then baseParts.dropLast else baseParts
  let segments :=
    if upath.take 1 = ['/'] then splitOnChar '/' upath
    else filterMiddle (baseParts ++ splitOnChar '/' upath)
  let resolved := resolveSegs [] segments
  let resolved :=
    if segments.getLast?.getD [] = ['.'] ∨ segments.getLast?.getD [] = ['.', '.'] then
      resolved ++ [[]]
    else resolved
  let p := List.intercalate ['/'] resolved
  if p = [] then ['/'] else p

/-- The body of `urljoin` once both inputs are nonempty and parsed: return
the url unchanged on scheme mismatch, take its own netloc when present,
inherit the base's netloc otherwise, and either shortcut (empty path and
params) or merge the paths. -/
def urljoinCore (url : List Char) (b u : UParse) : List Char :=
  if u.scheme ≠ b.scheme ∨ ¬ usesRelative.contains u.scheme then url
  else if usesNetloc.contains u.scheme ∧ u.netloc ≠ [] then
    urlunparseL u.scheme u.netloc u.path u.params u.query u.fragment
  else if u.path = [] ∧ u.params = [] then
    urlunparseL u.scheme (if usesNetloc.contains u.scheme then b.netloc else u.netloc)
      b.path b.params (if u.query = [] then b.query else u.query) u.fragment
  else
    urlunparseL u.scheme (if usesNetloc.contains u.scheme then b.netloc else u.netloc)
      (urljoinMergePath b.path u.path) u.params u.query u.fragment

/-- `urllib.parse.urljoin(base, url)` (CPython). -/
def urljoinL (base url : List Char) : List Char :=
  if base = [] then url
  else if url = [] then base
  else urljoinCore url (urlparseL base []) (urlparseL url (urlparseL base []).scheme)

/-- `urllib.parse.urljoin` on Lean strings. -/
def urljoin (base url : String) : String :=
  String.mk (urljoinL base.toList url.toList)

/-! ## The repository's `download_image`

```python
def download_image(url, base_url):
    """Convert relative URLs to absolute URLs"""
    if not url.startswith(('http://', 'https://')):
        return urljoin(base_url, url)
    return url
```
-/

/-- `download_image(url, base_url)` from `web-scraper-app.py`. -/
def download_image (url base_url : String) : String :=
  if ¬ (pyStartswith url "http://" || pyStartswith url "https://") then urljoin base_url url
  else url

/-! ## RFC 3986 reference resolution (the spec's words)

The specification describes the URL Normalizer as "standard relative-URL
resolution rules (RFC 3986 base+relative merge)".  To compare the code's
`urljoin` against that wording, the algorithm of RFC 3986 §5.2–§5.3 is
rendered below, with `Option` distinguishing undefined from empty
components as the RFC does. -/

/-- A URI split into the five RFC 3986 components; `none` means the
component is undefined (distinct from present-but-empty). -/
structure RfcComponents where
  scheme : Option (List Char)
  authority : Option (List Char)
  path : List Char
  query : Option (List Char)
  fragment : Option (List Char)
deriving DecidableEq, Repr

/-- Modelled from the spec: RFC 3986 §3 component parsing (scheme when
syntactically valid, authority after `//`, fragment after `#`, query
after `?`). -/
def rfcParse (url : List Char) : RfcComponents :=
  let (scheme, rest) :=
    match splitScheme url with
    | some (s, r) => (some s, r)
    | none => (none, url)
  let (authority, rest) :=
    match rest with
    | '/' :: '/' :: r =>
      let (a, b) := netlocSpan r
      (some a, b)
    | _ => ((none : Option (List Char)), rest)
  let (rest, fragment) :=
    match splitAtFirst '#' rest with
    | some (a, b) => (a, some b)
    | none => (rest, (none : Option (List Char)))
  let (path, query) :=
    match splitAtFirst '?' rest with
    | some (a, b) => (a, some b)
    | none => (rest, (none : Option (List Char)))
  ⟨scheme, authority, path, query, fragment⟩

/-- Remove the last segment and its preceding `/` from an output buffer
(RFC 3986 §5.2.4 step 2C). -/
def dropLastSegment (out : List Char) : List Char :=
  ((out.reverse.dropWhile (fun c => c ≠ '/')).drop 1).reverse

/-- One pass of RFC 3986 §5.2.4 `remove_dot_segments`, with fuel for
termination; each step strictly shortens the input. -/
def rdsAux : Nat → List Char → List Char → List Char
  | 0, _, out => out
  | fuel + 1, inp, out =>
    if isPreCL ("../".toList) inp then rdsAux fuel (inp.drop 3) out
    else if isPreCL ("./".toList) inp then rdsAux fuel (inp.drop 2) out
    else if isPreCL ("/./".toList) inp then rdsAux fuel ('/' :: inp.drop 3) out
    else if inp = "/.".toList then rdsAux fuel ['/'] out
    else if isPreCL ("/../".toList) inp then rdsAux fuel ('/' :: inp.drop 4) (dropLastSegment out)
    else if inp = "/..".toList then rdsAux fuel ['/'] (dropLastSegment out)
    else if inp = ['.'] ∨ inp = ['.', '.'] then out
    else
      match inp with
      | [] => out
      | c :: rest =>
        let seg := c :: rest.takeWhile (fun d => d ≠ '/')
        let rest := rest.dropWhile (fun d => d ≠ '/')
        rdsAux fuel rest (out ++ seg)

/-- RFC 3986 §5.2.4 `remove_dot_segments`. -/
def removeDotSegments (p : List Char) : List Char :=
  rdsAux (p.length + 1) p []

/-- RFC 3986 §5.2.3 `merge` of a base and a relative path. -/
def rfcMerge (b : RfcComponents) (rpath : List Char) : List Char :=
  if b.authority.isSome ∧ b.path = [] then '/' :: rpath
  else (b.path.reverse.dropWhile (fun c => c ≠ '/')).reverse ++ rpath

/-- RFC 3986 §5.2.2 transform-references algorithm (strict). -/
def rfcResolveC (b r : RfcComponents) : RfcComponents :=
  if r.scheme.isSome then ⟨r.scheme, r.authority, removeDotSegments r.path, r.query, r.fragment⟩
  else if r.authority.isSome then ⟨b.scheme, r.authority, removeDotSegments r.path, r.query, r.fragment⟩
  else if r.path = [] then ⟨b.scheme, b.authority, b.path, (if r.query.isSome then r.query else b.query), r.fragment⟩
  else if r.path.take 1 = ['/'] then ⟨b.scheme, b.authority, removeDotSegments r.path, r.query, r.fragment⟩
  else ⟨b.scheme, b.authority, removeDotSegments (rfcMerge b r.path), r.query, r.fragment⟩

/-- RFC 3986 §5.3 recomposition. -/
def rfcRecompose (t : RfcComponents) : List Char :=
  (match t.scheme with | some s => s ++ [':'] | none => [])
  ++ (match t.authority with | some a => '/' :: '/' :: a | none => [])
  ++ t.path
  ++ (match t.query with | some q => '?' :: q | none => [])
  ++ (match t.fragment with | some f => '#' :: f | none => [])

/-- Modelled from the spec: "resolve candidate as relative against baseUrl
using standard relative-URL resolution rules (RFC 3986 base+relative
merge)" — the full RFC 3986 §5 reference-resolution procedure. -/
def rfc3986Resolve (base ref : String) : String :=
  String.mk (rfcRecompose (rfcResolveC (rfcParse base.toList) (rfcParse ref.toList)))

/-! ## The parsed document (BeautifulSoup queries used by the code)

`scrape_website` queries the soup only through `find_all('a')`,
`find_all(tag)`, `find_all(class_=c)`, `find_all('img')`, `Tag.get` and
`Tag.get_text(strip=True)`.  A parsed document is therefore embedded as
its elements in document order; each element carries its (lowercased, as
`html.parser` stores them) tag name, its attributes, its class tokens
(BeautifulSoup keeps `class` as a multi-valued attribute) and its
descendant strings in order. -/

/-- One element of the parsed tree. -/
structure Element where
  tag : String
  attrs : List (String × String)
  classes : List String
  strings : List String
deriving DecidableEq, Repr

/-- A parsed document: its elements, flattened in document order
(`find_all` traverses and reports in document order). -/
structure Doc where
  elements : List Element
deriving DecidableEq, Repr

/-- `Tag.get(name)`: the attribute's value, or `None` when absent. -/
def attrGet (e : Element) (name : String) : Option String :=
  e.attrs.lookup name

/-- `soup.find_all(t)`: every element whose tag name equals `t`,
in document order. -/
def find_all_tag (doc : Doc) (t : String) : List Element :=
  doc.elements.filter (fun e => e.tag == t)

/-- `soup.find_all(class_=c)`: every element whose class list contains the
token `c`, in document order. -/
def find_all_class (doc : Doc) (c : String) : List Element :=
  doc.elements.filter (fun e => e.classes.contains c)

/-- `Tag.get_text(strip=strip)` with separator `""`: the concatenation of
the descendant strings; with `strip=True` each string is stripped first
and strings that become empty are skipped (BeautifulSoup's documented
behavior). -/
def get_text (e : Element) (strip : Bool) : String :=
  if strip then String.join ((e.strings.map pyStrip).filter (fun s => s ≠ ""))
  else String.join e.strings

/-! ## `scrape_website` -/

/-- The `selectors` dictionary built in `main`:
`{'Links': checkbox, 'Text': text_input, 'Custom Class': text_input,
'Images': checkbox}`.  A checkbox is truthy when checked; a text input is
truthy when nonempty. -/
structure Selectors where
  links : Bool
  text : String
  customClass : String
  images : Bool
deriving DecidableEq, Repr

/-- One record of the Images rule: the dict
`{'URL': absolute_url, 'Alt Text': alt_text}`. -/
structure ImageRecord where
  url : String
  altText : String
deriving DecidableEq, Repr

/-- A value of the results dictionary: a list of strings (Links, Text,
Custom Class) or of image records (Images). -/
inductive RuleData where
  | strs (l : List String)
  | imgs (l : List ImageRecord)
deriving DecidableEq, Repr

/-- The results dictionary: insertion-ordered keys with their data. -/
abbrev Results := List (String × RuleData)

/-- `[elem.get('href') for elem in soup.find_all('a') if elem.get('href')]`:
hrefs of the anchors, verbatim, skipping falsy (missing or empty) ones. -/
def linksOf (doc : Doc) : List String :=
  (find_all_tag doc "a").filterMap (fun elem =>
    match attrGet elem "href" with
    | some h => if h = "" then none else some h
    | none => none)

/-- `[elem.get_text(strip=True) for elem in soup.find_all(selector_value)]`. -/
def textsOf (doc : Doc) (t : String) : List String :=
  (find_all_tag doc t).map (fun elem => get_text elem true)

/-- `[elem.get_text(strip=True) for elem in soup.find_all(class_=selector_value)]`. -/
def classTextsOf (doc : Doc) (c : String) : List String :=
  (find_all_class doc c).map (fun elem => get_text elem true)

/-- The body of the Images loop for one `img` element: when `src` is
truthy, the record with the normalized URL and
`img.get('alt', 'No alt text')` (the default applies only when the
attribute is missing). -/
def imageStep (pageUrl : String) (image_data : List ImageRecord) (img : Element) : List ImageRecord :=
  match attrGet img "src" with
  | some src =>
    if src = "" then image_data
    else image_data ++ [⟨download_image src pageUrl, (attrGet img "alt").getD "No alt text"⟩]
  | none => image_data

/-- The Images loop: iterate `find_all('img')`, appending a record for each
element with a truthy `src`. -/
def imagesOf (doc : Doc) (pageUrl : String) : List ImageRecord :=
  (find_all_tag doc "img").foldl (imageStep pageUrl) []

/-- The `for selector_type, selector_value in selectors.items()` loop of
`scrape_website`: each enabled selector inserts its list into the results
dictionary, in the dictionary's insertion order
(Links, Text, Custom Class, Images). -/
def extractAll (pageUrl : String) (doc : Doc) (sel : Selectors) : Results :=
  (if sel.links then [("Links", RuleData.strs (linksOf doc))] else [])
  ++ (if sel.text ≠ "" then [("Text", RuleData.strs (textsOf doc sel.text))] else [])
  ++ (if sel.customClass ≠ "" then [("Custom Class", RuleData.strs (classTextsOf doc sel.customClass))] else [])
  ++ (if sel.images then [("Images", RuleData.imgs (imagesOf doc pageUrl))] else [])

/-- What `requests.get(url)` did: either it returned a response (with its
final status code, reason phrase and final URL, the parsed body being
recorded separately in `WebEnv.parse`), or it raised a
`requests.RequestException` (connection failure, DNS error, timeout…). -/
inductive GetOutcome where
  | resp (status : Nat) (reason : String) (rurl : String)
  | raises (msg : String)
deriving DecidableEq, Repr

/-- What `BeautifulSoup(response.content, 'html.parser')` did with the
response body: the parsed document, or a (non-`RequestException`)
exception. -/
inductive ParseOutcome where
  | ok (doc : Doc)
  | raises (msg : String)
deriving DecidableEq, Repr

/-- The effectful world a single invocation observes: the outcome of its
one GET request and of parsing the returned body. -/
structure WebEnv where
  get : GetOutcome
  parse : ParseOutcome
deriving DecidableEq, Repr

/-- The exceptions distinguished by `scrape_website`'s handlers. -/
inductive PyExc where
  | requestExc (msg : String)
  | otherExc (msg : String)
deriving DecidableEq, Repr

/-- `Response.raise_for_status()`: raises `requests.HTTPError` (a
`RequestException`) exactly for status codes 400–599, with the documented
client/server error message; all other statuses pass. -/
def raise_for_status (status : Nat) (reason rurl : String) : Except PyExc Unit :=
  if 400 ≤ status ∧ status < 500 then
    Except.error (PyExc.requestExc (toString status ++ " Client Error: " ++ reason ++ " for url: " ++ rurl))
  else if 500 ≤ status ∧ status < 600 then
    Except.error (PyExc.requestExc (toString status ++ " Server Error: " ++ reason ++ " for url: " ++ rurl))
  else Except.ok ()

/-- The `try` block of `scrape_website`: GET, `raise_for_status`, parse,
then the extraction loop. -/
def scrapeBody (url : String) (sel : Selectors) (env : WebEnv) : Except PyExc Results :=
  match env.get with
  | GetOutcome.raises m => Except.error (PyExc.requestExc m)
  | GetOutcome.resp status reason rurl =>
    match raise_for_status status reason rurl with
    | Except.error e => Except.error e
    | Except.ok _ =>
      match env.parse with
      | ParseOutcome.raises m => Except.error (PyExc.otherExc m)
      | ParseOutcome.ok doc => Except.ok (extractAll url doc sel)

/-- `scrape_website(url, selectors)`: the `try/except` wrapper returning
`(results, None)` on success, `(None, message)` on failure, with
`RequestException` and generic exceptions formatted by their respective
handlers. -/
def scrape_website (url : String) (sel : Selectors) (env : WebEnv) : Option Results × Option String :=
  match scrapeBody url sel env with
  | Except.ok r => (some r, none)
  | Except.error (PyExc.requestExc m) => (none, some ("Error fetching the website: " ++ m))
  | Except.error (PyExc.otherExc m) => (none, some ("An error occurred: " ++ m))

/-! ## Supporting lemmas -/

theorem raise_for_status_pass (status : Nat) (reason rurl : String)
    (h : ¬ (400 ≤ status ∧ status < 600)) :
    raise_for_status status reason rurl = Except.ok () := by
  have h1 : ¬ (400 ≤ status ∧ status < 500) := by omega
  have h2 : ¬ (500 ≤ status ∧ status < 600) := by omega
  unfold raise_for_status
  rw [if_neg h1, if_neg h2]

theorem raise_for_status_client (status : Nat) (reason rurl : String)
    (h : 400 ≤ status ∧ status < 500) :
    raise_for_status status reason rurl
      = Except.error (PyExc.requestExc (toString status ++ " Client Error: " ++ reason ++ " for url: " ++ rurl)) := by
  unfold raise_for_status
  rw [if_pos h]

theorem raise_for_status_server (status : Nat) (reason rurl : String)
    (h : 500 ≤ status ∧ status < 600) :
    raise_for_status status reason rurl
      = Except.error (PyExc.requestExc (toString status ++ " Server Error: " ++ reason ++ " for url: " ++ rurl)) := by
  have h1 : ¬ (400 ≤ status ∧ status < 500) := by omega
  unfold raise_for_status
  rw [if_neg h1, if_pos h]

theorem imagesOf_foldl_eq (pageUrl : String) :
    ∀ (l : List Element) (acc : List ImageRecord),
      l.foldl (imageStep pageUrl) acc
        = acc ++ l.filterMap (fun img =>
            match attrGet img "src" with
            | some src =>
              if src = "" then none
              else some ⟨download_image src pageUrl, (attrGet img "alt").getD "No alt text"⟩
            | none => none) := by
  intro l
  induction l with
  | nil => intro acc; simp
  | cons img rest ih =>
    intro acc
    rw [List.foldl_cons, List.filterMap_cons, ih]
    unfold imageStep
    cases h : attrGet img "src" with
    | none => simp
    | some src =>
      by_cases hs : src = ""
      · simp [hs]
      · simp [hs]

theorem imagesOf_eq_filterMap (doc : Doc) (pageUrl : String) :
    imagesOf doc pageUrl
      = (find_all_tag doc "img").filterMap (fun img =>
          match attrGet img "src" with
          | some src =>
            if src = "" then none
            else some ⟨download_image src pageUrl, (attrGet img "alt").getD "No alt text"⟩
          | none => none) := by
  unfold imagesOf
  rw [imagesOf_foldl_eq]
  simp

theorem extractAll_lookup_links (pageUrl : String) (doc : Doc) (sel : Selectors) :
    (extractAll pageUrl doc sel).lookup "Links"
      = (if sel.links then some (RuleData.strs (linksOf doc)) else none) := by
  rcases sel with ⟨l, t, c, i⟩
  cases l <;> by_cases ht : t = "" <;> by_cases hc : c = "" <;> cases i <;>
    simp [extractAll, ht, hc, List.lookup]

theorem extractAll_lookup_text (pageUrl : String) (doc : Doc) (sel : Selectors) :
    (extractAll pageUrl doc sel).lookup "Text"
      = (if sel.text = "" then none else some (RuleData.strs (textsOf doc sel.text))) := by
  rcases sel with ⟨l, t, c, i⟩
  cases l <;> by_cases ht : t = "" <;> by_cases hc : c = "" <;> cases i <;>
    simp [extractAll, ht, hc, List.lookup]

theorem extractAll_lookup_class (pageUrl : String) (doc : Doc) (sel : Selectors) :
    (extractAll pageUrl doc sel).lookup "Custom Class"
      = (if sel.customClass = "" then none
         else some (RuleData.strs (classTextsOf doc sel.customClass))) := by
  rcases sel with ⟨l, t, c, i⟩
  cases l <;> by_cases ht : t = "" <;> by_cases hc : c = "" <;> cases i <;>
    simp [extractAll, ht, hc, List.lookup]

theorem extractAll_lookup_images (pageUrl : String) (doc : Doc) (sel : Selectors) :
    (extractAll pageUrl doc sel).lookup "Images"
      = (if sel.images then some (RuleData.imgs (imagesOf doc pageUrl)) else none) := by
  rcases sel with ⟨l, t, c, i⟩
  cases l <;> by_cases ht : t = "" <;> by_cases hc : c = "" <;> cases i <;>
    simp [extractAll, ht, hc, List.lookup]

theorem scrape_website_success (url : String) (sel : Selectors) (status : Nat)
    (reason rurl : String) (doc : Doc) (h : ¬ (400 ≤ status ∧ status < 600)) :
    scrape_website url sel ⟨GetOutcome.resp status reason rurl, ParseOutcome.ok doc⟩
      = (some (extractAll url doc sel), none) := by
  simp only [scrape_website, scrapeBody, raise_for_status_pass status reason rurl h]

theorem scrape_website_fetch_exc (url : String) (sel : Selectors) (m : String) (p : ParseOutcome) :
    scrape_website url sel ⟨GetOutcome.raises m, p⟩
      = (none, some ("Error fetching the website: " ++ m)) := by
  simp only [scrape_website, scrapeBody]

theorem scrape_website_http_error (url : String) (sel : Selectors) (status : Nat)
    (reason rurl : String) (p : ParseOutcome) (h : 400 ≤ status ∧ status < 600) :
    scrape_website url sel ⟨GetOutcome.resp status reason rurl, p⟩
      = (none, some ("Error fetching the website: "
          ++ (if status < 500 then toString status ++ " Client Error: " ++ reason ++ " for url: " ++ rurl
              else toString status ++ " Server Error: " ++ reason ++ " for url: " ++ rurl))) := by
  by_cases hc : status < 500
  · simp only [scrape_website, scrapeBody,
      raise_for_status_client status reason rurl ⟨h.1, hc⟩, if_pos hc]
  · simp only [scrape_website, scrapeBody,
      raise_for_status_server status reason rurl ⟨by omega, h.2⟩, if_neg hc]

theorem scrape_website_parse_exc (url : String) (sel : Selectors) (status : Nat)
    (reason rurl m : String) (h : ¬ (400 ≤ status ∧ status < 600)) :
    scrape_website url sel ⟨GetOutcome.resp status reason rurl, ParseOutcome.raises m⟩
      = (none, some ("An error occurred: " ++ m)) := by
  simp only [scrape_website, scrapeBody, raise_for_status_pass status reason rurl h]

/-! ## The claims -/

/-- **C1, counterexample.**  The claim says an enabled rule kind producing
zero records is omitted from the returned mapping.  On a page with no
anchors and the Links rule enabled, `scrape_website` nevertheless returns
a mapping in which the key `"Links"` is present, bound to the empty list:
the code assigns `results[selector_type] = [...]` unconditionally for
every enabled selector; empty lists are filtered only by the presentation
layer (`if data:`). -/
theorem C1_counterexample_empty_links_key_present :
    scrape_website "http://site.com" ⟨true, "", "", false⟩
        ⟨GetOutcome.resp 200 "OK" "http://site.com",
         ParseOutcome.ok ⟨[⟨"p", [], [], ["hi"]⟩]⟩⟩
      = (some [("Links", RuleData.strs [])], none)
    ∧ (List.lookup "Links" [("Links", RuleData.strs [])]).isSome = true := by
  decide

/-- **C1, amended.**  A rule kind is present in the returned mapping
exactly when its selector is enabled (checkbox checked, text input
nonempty), regardless of how many records it produced — an enabled rule
with zero records is present and bound to the empty list; dropping empty
entries is done by the presentation layer, not by the core. -/
theorem C1_amended_enabled_keys_always_present (url : String) (sel : Selectors)
    (status : Nat) (reason rurl : String) (doc : Doc)
    (h : ¬ (400 ≤ status ∧ status < 600)) :
    scrape_website url sel ⟨GetOutcome.resp status reason rurl, ParseOutcome.ok doc⟩
      = (some (extractAll url doc sel), none)
    ∧ (extractAll url doc sel).lookup "Links"
        = (if sel.links then some (RuleData.strs (linksOf doc)) else none)
    ∧ (extractAll url doc sel).lookup "Text"
        = (if sel.text = "" then none else some (RuleData.strs (textsOf doc sel.text)))
    ∧ (extractAll url doc sel).lookup "Custom Class"
        = (if sel.customClass = "" then none
           else some (RuleData.strs (classTextsOf doc sel.customClass)))
    ∧ (extractAll url doc sel).lookup "Images"
        = (if sel.images then some (RuleData.imgs (imagesOf doc url)) else none) :=
  ⟨scrape_website_success url sel status reason rurl doc h,
   extractAll_lookup_links url doc sel,
   extractAll_lookup_text url doc sel,
   extractAll_lookup_class url doc sel,
   extractAll_lookup_images url doc sel⟩

/-- Witness for C1: on an empty page with only Links enabled the key is
present with an empty list. -/
theorem C1_amended_witness :
    (¬ (400 ≤ 200 ∧ 200 < 600))
    ∧ scrape_website "http://u" ⟨true, "", "", false⟩
        ⟨GetOutcome.resp 200 "OK" "http://u", ParseOutcome.ok ⟨[]⟩⟩
      = (some [("Links", RuleData.strs [])], none) :=
  ⟨by decide,
   (C1_amended_enabled_keys_always_present "http://u" ⟨true, "", "", false⟩
      200 "OK" "http://u" ⟨[]⟩ (by decide)).1⟩

/-- **C2, counterexample.**  The claim says `altText` is the sentinel
`"No alt text"` when the `alt` attribute is missing *or empty*.  For an
image whose `alt` attribute is present but empty, the code's
`img.get('alt', 'No alt text')` returns `""` (the default applies only to
a missing key), so the record's `altText` is `""`, not the sentinel. -/
theorem C2_counterexample_empty_alt :
    scrape_website "http://site.com" ⟨false, "", "", true⟩
        ⟨GetOutcome.resp 200 "OK" "http://site.com",
         ParseOutcome.ok ⟨[⟨"img", [("src", "http://site.com/p.png"), ("alt", "")], [], []⟩]⟩⟩
      = (some [("Images", RuleData.imgs [⟨"http://site.com/p.png", ""⟩])], none)
    ∧ ("" : String) ≠ "No alt text" := by
  decide

/-- **C2, amended.**  For every image element with a truthy `src`, the
Images rule produces a record whose `altText` is the `alt` attribute's
value whenever the attribute is present (including when it is the empty
string), and the sentinel `"No alt text"` only when the attribute is
missing. -/
theorem C2_amended_alt_default_only_when_missing (url : String) (sel : Selectors)
    (status : Nat) (reason rurl : String) (doc : Doc)
    (h : ¬ (400 ≤ status ∧ status < 600)) (hi : sel.images = true) :
    ∃ res, scrape_website url sel ⟨GetOutcome.resp status reason rurl, ParseOutcome.ok doc⟩
        = (some res, none)
      ∧ res.lookup "Images"
          = some (RuleData.imgs ((find_all_tag doc "img").filterMap (fun img =>
              match attrGet img "src" with
              | some src =>
                if src = "" then none
                else some ⟨download_image src url,
                           (attrGet img "alt").getD "No alt text"⟩
              | none => none))) := by
  refine ⟨extractAll url doc sel,
          scrape_website_success url sel status reason rurl doc h, ?_⟩
  rw [extractAll_lookup_images, hi, if_pos rfl, imagesOf_eq_filterMap]

/-- Witness for C2: an image with no `alt` attribute gets the sentinel. -/
theorem C2_amended_witness :
    (¬ (400 ≤ 200 ∧ 200 < 600))
    ∧ ∃ res, scrape_website "http://site.com" ⟨false, "", "", true⟩
          ⟨GetOutcome.resp 200 "OK" "http://site.com",
           ParseOutcome.ok ⟨[⟨"img", [("src", "http://site.com/p.png")], [], []⟩]⟩⟩
        = (some res, none)
      ∧ res.lookup "Images"
          = some (RuleData.imgs [⟨"http://site.com/p.png", "No alt text"⟩]) :=
  ⟨by decide,
   C2_amended_alt_default_only_when_missing "http://site.com" ⟨false, "", "", true⟩
     200 "OK" "http://site.com" ⟨[⟨"img", [("src", "http://site.com/p.png")], [], []⟩]⟩
     (by decide) rfl⟩

/-- **C3 (confirmed).**  Every invocation returns either a result with no
error or an error with no result — never both, never neither. -/
theorem C3_result_xor_error (url : String) (sel : Selectors) (env : WebEnv) :
    ((scrape_website url sel env).1.isSome ∧ (scrape_website url sel env).2 = none)
    ∨ ((scrape_website url sel env).1 = none ∧ (scrape_website url sel env).2.isSome) := by
  cases hsb : scrapeBody url sel env with
  | ok r => simp [scrape_website, hsb]
  | error e => cases e <;> simp [scrape_website, hsb]

/-- **C4, counterexample.**  The claim says *any* non-2xx status produces a
NetworkError report and no extraction.  `raise_for_status` raises only for
4xx/5xx, so a 304 response (non-2xx) sails through and extraction runs,
returning an ExtractionResult. -/
theorem C4_counterexample_status_304 :
    (¬ (200 ≤ 304 ∧ 304 < 300))
    ∧ scrape_website "http://site.com" ⟨true, "", "", false⟩
        ⟨GetOutcome.resp 304 "Not Modified" "http://site.com",
         ParseOutcome.ok ⟨[⟨"a", [("href", "/x")], [], []⟩]⟩⟩
      = (some [("Links", RuleData.strs ["/x"])], none) := by
  decide

/-- **C4, amended.**  Every fetch that yields a 4xx or 5xx HTTP status
produces the fetch-stage error report (from the `HTTPError` raised by
`raise_for_status`) and no result; extraction is not performed — the
outcome is independent of the parse outcome `p`. -/
theorem C4_amended_4xx_5xx_error (url : String) (sel : Selectors) (status : Nat)
    (reason rurl : String) (p : ParseOutcome) (h : 400 ≤ status ∧ status < 600) :
    scrape_website url sel ⟨GetOutcome.resp status reason rurl, p⟩
      = (none, some ("Error fetching the website: "
          ++ (if status < 500 then toString status ++ " Client Error: " ++ reason ++ " for url: " ++ rurl
              else toString status ++ " Server Error: " ++ reason ++ " for url: " ++ rurl))) :=
  scrape_website_http_error url sel status reason rurl p h

/-- Witness for C4: a 404 yields the fetch-stage error report. -/
theorem C4_amended_witness :
    (400 ≤ 404 ∧ 404 < 600)
    ∧ scrape_website "http://site.com" ⟨true, "", "", false⟩
        ⟨GetOutcome.resp 404 "Not Found" "http://site.com/", ParseOutcome.ok ⟨[]⟩⟩
      = (none, some "Error fetching the website: 404 Client Error: Not Found for url: http://site.com/") :=
  ⟨by decide,
   C4_amended_4xx_5xx_error "http://site.com" ⟨true, "", "", false⟩ 404 "Not Found"
     "http://site.com/" (ParseOutcome.ok ⟨[]⟩) (by decide)⟩

/-- **C5 (confirmed).**  With the Links rule enabled, the result maps
`"Links"` to exactly the `href` values, verbatim and unnormalized, of the
anchor elements that have a nonempty `href`, in document order; anchors
with a missing or empty `href` are skipped silently. -/
theorem C5_links_verbatim_document_order (url : String) (sel : Selectors)
    (status : Nat) (reason rurl : String) (doc : Doc)
    (h : ¬ (400 ≤ status ∧ status < 600)) (hl : sel.links = true) :
    ∃ res, scrape_website url sel ⟨GetOutcome.resp status reason rurl, ParseOutcome.ok doc⟩
        = (some res, none)
      ∧ res.lookup "Links"
          = some (RuleData.strs ((doc.elements.filter (fun e => e.tag == "a")).filterMap (fun e =>
              match attrGet e "href" with
              | some href => if href = "" then none else some href
              | none => none))) := by
  refine ⟨extractAll url doc sel,
          scrape_website_success url sel status reason rurl doc h, ?_⟩
  rw [extractAll_lookup_links, hl, if_pos rfl]
  rfl

/-- Witness for C5: the spec's own example — two anchors, one relative and
one absolute href, both reported verbatim in order. -/
theorem C5_witness :
    (¬ (400 ≤ 200 ∧ 200 < 600))
    ∧ ∃ res, scrape_website "http://site.com" ⟨true, "", "", false⟩
          ⟨GetOutcome.resp 200 "OK" "http://site.com",
           ParseOutcome.ok ⟨[⟨"a", [("href", "/x")], [], ["A"]⟩,
                            ⟨"a", [("href", "http://ex.com/y")], [], ["B"]⟩]⟩⟩
        = (some res, none)
      ∧ res.lookup "Links" = some (RuleData.strs ["/x", "http://ex.com/y"]) :=
  ⟨by decide,
   C5_links_verbatim_document_order "http://site.com" ⟨true, "", "", false⟩
     200 "OK" "http://site.com"
     ⟨[⟨"a", [("href", "/x")], [], ["A"]⟩, ⟨"a", [("href", "http://ex.com/y")], [], ["B"]⟩]⟩
     (by decide) rfl⟩

/-- **C8, counterexample.**  The claim says each record equals the
element's visible text with leading and trailing whitespace stripped.
`get_text(strip=True)` instead strips each descendant string individually
and drops the ones that become empty: for a `p` element whose strings are
`"a "` and `" b"`, the visible text is `"a  b"` (stripping its ends leaves
`"a  b"`), but the code produces `"ab"`. -/
theorem C8_counterexample_inner_whitespace :
    scrape_website "http://site.com" ⟨false, "p", "", false⟩
        ⟨GetOutcome.resp 200 "OK" "http://site.com",
         ParseOutcome.ok ⟨[⟨"p", [], [], ["a ", " b"]⟩]⟩⟩
      = (some [("Text", RuleData.strs ["ab"])], none)
    ∧ pyStrip (get_text ⟨"p", [], [], ["a ", " b"]⟩ false) = "a  b"
    ∧ ("ab" : String) ≠ "a  b" := by
  decide

/-- **C8, amended.**  Each element selected by the TagText or ClassText
rule contributes exactly one record — the concatenation of its descendant
strings, each stripped of leading and trailing whitespace, with strings
that strip to empty omitted; elements whose entire text strips to empty
still contribute an empty-string record (no filtering of empties).  For an
element with a single descendant string this coincides with the claim:
the record is the visible text stripped. -/
theorem C8_amended_per_string_strip (url : String) (sel : Selectors)
    (status : Nat) (reason rurl : String) (doc : Doc)
    (h : ¬ (400 ≤ status ∧ status < 600)) :
    ∃ res, scrape_website url sel ⟨GetOutcome.resp status reason rurl, ParseOutcome.ok doc⟩
        = (some res, none)
      ∧ (sel.text ≠ "" →
          res.lookup "Text"
            = some (RuleData.strs ((doc.elements.filter (fun e => e.tag == sel.text)).map
                (fun e => get_text e true))))
      ∧ (sel.customClass ≠ "" →
          res.lookup "Custom Class"
            = some (RuleData.strs ((doc.elements.filter (fun e => e.classes.contains sel.customClass)).map
                (fun e => get_text e true))))
      ∧ (∀ (t : String) (a : List (String × String)) (cl : List String) (s : String),
          get_text ⟨t, a, cl, [s]⟩ true = pyStrip s) := by
  refine ⟨extractAll url doc sel,
          scrape_website_success url sel status reason rurl doc h, ?_, ?_, ?_⟩
  · intro ht
    rw [extractAll_lookup_text, if_neg ht]
    rfl
  · intro hc
    rw [extractAll_lookup_class, if_neg hc]
    rfl
  · intro t a cl s
    show String.join ((List.map pyStrip [s]).filter (fun x => x ≠ "")) = pyStrip s
    by_cases hs : pyStrip s = ""
    · simp [hs, String.join]
    · simp [hs, String.join]

/-- Witness for C8: a paragraph `" hi "` and a `quote`-classed element
`"q "`, both stripped; the second, being all-whitespace-free after
stripping, still appears as its own record. -/
theorem C8_amended_witness :
    (¬ (400 ≤ 200 ∧ 200 < 600))
    ∧ ∃ res, scrape_website "http://site.com" ⟨false, "p", "quote", false⟩
          ⟨GetOutcome.resp 200 "OK" "http://site.com",
           ParseOutcome.ok ⟨[⟨"p", [], [], [" hi "]⟩, ⟨"div", [], ["quote"], ["q "]⟩]⟩⟩
        = (some res, none)
      ∧ (("p" : String) ≠ "" → res.lookup "Text" = some (RuleData.strs ["hi"]))
      ∧ (("quote" : String) ≠ "" → res.lookup "Custom Class" = some (RuleData.strs ["q"]))
      ∧ (∀ (t : String) (a : List (String × String)) (cl : List String) (s : String),
          get_text ⟨t, a, cl, [s]⟩ true = pyStrip s) :=
  ⟨by decide,
   C8_amended_per_string_strip "http://site.com" ⟨false, "p", "quote", false⟩
     200 "OK" "http://site.com"
     ⟨[⟨"p", [], [], [" hi "]⟩, ⟨"div", [], ["quote"], ["q "]⟩]⟩ (by decide)⟩

/-- **C10 (confirmed).**  `scrape_website` is total over its error model:
it always returns a `(results, error)` pair; a `RequestException` (a
connection-stage failure or an `HTTPError` from `raise_for_status`) is
reported with the `"Error fetching the website: "` prefix, any other
exception (arising at the parse stage) with the `"An error occurred: "`
prefix, and otherwise the full extraction result is returned — so
fetch-stage failures are always distinguishable by message prefix. -/
theorem C10_total_error_classification (url : String) (sel : Selectors) (env : WebEnv) :
    match env.get, env.parse with
    | GetOutcome.raises m, _ =>
        scrape_website url sel env = (none, some ("Error fetching the website: " ++ m))
    | GetOutcome.resp status reason rurl, pr =>
        if 400 ≤ status ∧ status < 600 then
          scrape_website url sel env
            = (none, some ("Error fetching the website: "
                ++ (if status < 500 then toString status ++ " Client Error: " ++ reason ++ " for url: " ++ rurl
                    else toString status ++ " Server Error: " ++ reason ++ " for url: " ++ rurl)))
        else
          match pr with
          | ParseOutcome.raises m =>
              scrape_website url sel env = (none, some ("An error occurred: " ++ m))
          | ParseOutcome.ok doc =>
              scrape_website url sel env = (some (extractAll url doc sel), none) := by
  rcases env with ⟨g, p⟩
  cases g with
  | raises m => exact scrape_website_fetch_exc url sel m p
  | resp status reason rurl =>
    dsimp only
    by_cases h4 : 400 ≤ status ∧ status < 600
    · rw [if_pos h4]
      exact scrape_website_http_error url sel status reason rurl p h4
    · rw [if_neg h4]
      cases p with
      | raises m => exact scrape_website_parse_exc url sel status reason rurl m h4
      | ok doc => exact scrape_website_success url sel status reason rurl doc h4

/-- **C6, counterexample.**  The claim says a candidate that is not
http(s)-prefixed is resolved "by standard RFC 3986 resolution".  CPython's
`urljoin` — which the code calls — collapses empty interior segments of a
merged relative path (`segments[1:-1] = filter(None, segments[1:-1])`),
so for candidate `"d//e"` against base `"http://a/b/c"` the code yields
`"http://a/b/d/e"` while RFC 3986 §5.2 yields `"http://a/b/d//e"`. -/
theorem C6_counterexample_rfc_divergence :
    pyStartswith "d//e" "http://" = false
    ∧ pyStartswith "d//e" "https://" = false
    ∧ download_image "d//e" "http://a/b/c" = "http://a/b/d/e"
    ∧ rfc3986Resolve "http://a/b/c" "d//e" = "http://a/b/d//e"
    ∧ download_image "d//e" "http://a/b/c" ≠ rfc3986Resolve "http://a/b/c" "d//e" := by
  decide

/-- **C6, amended.**  `download_image` returns the candidate unchanged
exactly when it begins with `"http://"` or `"https://"`, and otherwise
returns `urljoin(base, candidate)` — urllib's RFC 3986-style resolution,
which differs from strict RFC 3986 only in collapsing empty interior path
segments; on the spec's cases the two agree: `"pic.png"` against
`"http://site.com/dir/page.html"` resolves to
`"http://site.com/dir/pic.png"` (also per RFC 3986), and absolute paths,
parent steps, protocol-relative and query/fragment-only candidates resolve
as RFC 3986 prescribes. -/
theorem C6_amended_normalize_via_urljoin :
    (∀ (cand base : String),
        download_image cand base
          = if pyStartswith cand "http://" || pyStartswith cand "https://" then cand
            else urljoin base cand)
    ∧ download_image "pic.png" "http://site.com/dir/page.html" = "http://site.com/dir/pic.png"
    ∧ rfc3986Resolve "http://site.com/dir/page.html" "pic.png" = "http://site.com/dir/pic.png"
    ∧ urljoin "http://site.com/dir/page.html" "/abs/path" = "http://site.com/abs/path"
    ∧ urljoin "http://site.com/a/b/c" "../parent" = "http://site.com/a/parent"
    ∧ urljoin "http://site.com/dir/page.html" "//cdn.com/x.png" = "http://cdn.com/x.png"
    ∧ urljoin "http://site.com/dir/page.html" "?q=1" = "http://site.com/dir/page.html?q=1"
    ∧ urljoin "http://site.com/dir/page.html" "#frag" = "http://site.com/dir/page.html#frag" := by
  refine ⟨?_, by decide, by decide, by decide, by decide, by decide, by decide, by decide⟩
  intro cand base
  unfold download_image
  by_cases hp : pyStartswith cand "http://" || pyStartswith cand "https://"
  · rw [if_pos hp]
    simp [hp]
  · rw [if_neg hp]
    simp [hp]
theorem isPreCL_append : ∀ (p t : List Char), isPreCL p (p ++ t) = true := by
  intro p t
  induction p with
  | nil => rfl
  | cons c p ih =>
    show (if c = c then isPreCL p (p ++ t) else false) = true
    rw [if_pos rfl]
    exact ih

theorem isPreCL_exists : ∀ (p s : List Char), isPreCL p s = true → ∃ t, s = p ++ t := by
  intro p
  induction p with
  | nil => exact fun s _ => ⟨s, rfl⟩
  | cons d p ih =>
    intro s h
    cases s with
    | nil => exact absurd h (by simp [isPreCL])
    | cons c s =>
      rw [show isPreCL (d :: p) (c :: s) = (if c = d then isPreCL p s else false) from rfl] at h
      split_ifs at h with hc
      · obtain ⟨t, ht⟩ := ih s h
        exact ⟨t, by rw [hc, ht]; rfl⟩

theorem isPreCL_append_right (p s t : List Char) (h : isPreCL p s = true) :
    isPreCL p (s ++ t) = true := by
  obtain ⟨u, hu⟩ := isPreCL_exists p s h
  subst hu
  rw [List.append_assoc]
  exact isPreCL_append p (u ++ t)

theorem urlunsplitL_shape (scheme netloc path query fragment : List Char)
    (hs : scheme ≠ []) (hn : netloc ≠ []) :
    isPreCL (scheme ++ [':', '/', '/']) (urlunsplitL scheme netloc path query fragment) = true := by
  simp only [urlunsplitL]
  rw [if_pos (Or.inl hn : netloc ≠ [] ∨ path.take 2 = ['/', '/']), if_pos hs]
  set Z : List Char := if path ≠ [] ∧ path.take 1 ≠ ['/'] then '/' :: path else path with hZ
  have base : isPreCL (scheme ++ [':', '/', '/'])
      (scheme ++ ':' :: '/' :: '/' :: (netloc ++ Z)) = true := by
    have h := isPreCL_append (scheme ++ [':', '/', '/']) (netloc ++ Z)
    rwa [List.append_assoc] at h
  split_ifs
  · exact isPreCL_append_right _ _ _ (isPreCL_append_right _ _ _ base)
  · exact isPreCL_append_right _ _ _ base
  · exact isPreCL_append_right _ _ _ base
  · exact base

theorem urlunparseL_shape (scheme netloc path params query fragment : List Char)
    (hs : scheme ≠ []) (hn : netloc ≠ []) :
    isPreCL (scheme ++ [':', '/', '/']) (urlunparseL scheme netloc path params query fragment) = true := by
  unfold urlunparseL
  exact urlunsplitL_shape _ _ _ _ _ hs hn

theorem urlparseL_scheme (url d : List Char) :
    (urlparseL url d).scheme = (urlsplitL url d).scheme := by
  unfold urlparseL
  dsimp only
  split_ifs <;> rfl

theorem urljoinL_nil_right (bl : List Char) (hbl : bl ≠ []) : urljoinL bl [] = bl := by
  unfold urljoinL
  rw [if_neg hbl, if_pos rfl]

theorem urljoinCore_abs (url : List Char) (b u : UParse) (sch : List Char)
    (hbs : b.scheme = sch)
    (hnet : usesNetloc.contains sch = true) (hs0 : sch ≠ [])
    (hn : b.netloc ≠ []) :
    isPreCL (sch ++ [':', '/', '/']) (urljoinCore url b u) = true
    ∨ urljoinCore url b u = url := by
  unfold urljoinCore
  by_cases h1 : u.scheme ≠ b.scheme ∨ ¬ usesRelative.contains u.scheme
  · rw [if_pos h1]
    exact Or.inr rfl
  · rw [if_neg h1]
    have husch : u.scheme = sch := by
      rcases not_or.mp h1 with ⟨h2, _⟩
      rw [not_not] at h2
      exact h2.trans hbs
    by_cases h2 : usesNetloc.contains u.scheme ∧ u.netloc ≠ []
    · rw [if_pos h2]
      left
      rw [husch]
      exact urlunparseL_shape sch u.netloc u.path u.params u.query u.fragment hs0 h2.2
    · rw [if_neg h2]
      have hcontif : (if usesNetloc.contains u.scheme then b.netloc else u.netloc) = b.netloc := by
        rw [husch, hnet]
        rfl
      left
      by_cases h3 : u.path = [] ∧ u.params = []
      · rw [if_pos h3, hcontif, husch]
        exact urlunparseL_shape sch b.netloc b.path b.params _ u.fragment hs0 hn
      · rw [if_neg h3, hcontif, husch]
        exact urlunparseL_shape sch b.netloc _ u.params u.query u.fragment hs0 hn

theorem urljoinL_abs (bl xl sch : List Char)
    (hbs : (urlparseL bl []).scheme = sch)
    (hnet : usesNetloc.contains sch = true) (hs0 : sch ≠ [])
    (hn : (urlparseL bl []).netloc ≠ []) (hbl : bl ≠ []) :
    isPreCL (sch ++ [':', '/', '/']) (urljoinL bl xl) = true
    ∨ urljoinL bl xl = xl
    ∨ (xl = [] ∧ urljoinL bl xl = bl) := by
  by_cases hx : xl = []
  · exact Or.inr (Or.inr ⟨hx, by rw [hx]; exact urljoinL_nil_right bl hbl⟩)
  · have he : urljoinL bl xl
        = urljoinCore xl (urlparseL bl []) (urlparseL xl (urlparseL bl []).scheme) := by
      unfold urljoinL
      rw [if_neg hbl, if_neg hx]
    rw [he]
    rcases urljoinCore_abs xl (urlparseL bl []) (urlparseL xl (urlparseL bl []).scheme)
        sch hbs hnet hs0 hn with h | h
    · exact Or.inl h
    · exact Or.inr (Or.inl h)

theorem urljoinL_abs_result (bl xl : List Char)
    (hb : isPreCL ("http://".toList) bl = true ∨ isPreCL ("https://".toList) bl = true)
    (hn : (urlparseL bl []).netloc ≠ []) :
    isPreCL ("http://".toList) (urljoinL bl xl) = true
    ∨ isPreCL ("https://".toList) (urljoinL bl xl) = true
    ∨ urljoinL bl xl = xl := by
  rcases hb with h | h
  · obtain ⟨r, hr⟩ := isPreCL_exists ("http://".toList) bl h
    subst hr
    have hbl : ("http://".toList ++ r : List Char) ≠ [] := by
      intro hc
      exact absurd (List.append_eq_nil.mp hc).1 (by decide)
    have hbs : (urlparseL ("http://".toList ++ r) []).scheme = "http".toList := by
      rw [urlparseL_scheme]
      exact rfl
    rcases urljoinL_abs ("http://".toList ++ r) xl ("http".toList) hbs (by decide)
        (by decide) hn hbl with h1 | h1 | ⟨hxe, hbe⟩
    · exact Or.inl h1
    · exact Or.inr (Or.inr h1)
    · refine Or.inl ?_
      rw [hbe]
      exact isPreCL_append ("http://".toList) r
  · obtain ⟨r, hr⟩ := isPreCL_exists ("https://".toList) bl h
    subst hr
    have hbl : ("https://".toList ++ r : List Char) ≠ [] := by
      intro hc
      exact absurd (List.append_eq_nil.mp hc).1 (by decide)
    have hbs : (urlparseL ("https://".toList ++ r) []).scheme = "https".toList := by
      rw [urlparseL_scheme]
      exact rfl
    rcases urljoinL_abs ("https://".toList ++ r) xl ("https".toList) hbs (by decide)
        (by decide) hn hbl with h1 | h1 | ⟨hxe, hbe⟩
    · exact Or.inr (Or.inl h1)
    · exact Or.inr (Or.inr h1)
    · refine Or.inr (Or.inl ?_)
      rw [hbe]
      exact isPreCL_append ("https://".toList) r

/-- **C7 (confirmed).**  For a base URL that is an absolute http(s) URL
(it starts with `"http://"` or `"https://"` and has a nonempty network
location, as the validated page URL always does), the URL Normalizer is
idempotent on every candidate string:
`download_image(download_image(x, b), b) = download_image(x, b)`.  Either
the candidate is already http(s)-prefixed (returned unchanged, a fixed
point), or `urljoin` yields an http(s)-prefixed absolute URL (fixed on the
second pass), or `urljoin` returns the candidate itself unchanged
(foreign scheme), again a fixed point. -/
theorem C7_normalize_idempotent (x b : String)
    (hb : pyStartswith b "http://" = true ∨ pyStartswith b "https://" = true)
    (hn : (urlparseL b.toList []).netloc ≠ []) :
    download_image (download_image x b) b = download_image x b := by
  by_cases hx : (pyStartswith x "http://" || pyStartswith x "https://") = true
  · have hd : download_image x b = x := by
      unfold download_image
      rw [if_neg (by simp [hx])]
    rw [hd]
    exact hd
  · have hd : download_image x b = urljoin b x := by
      unfold download_image
      rw [if_pos hx]
    rw [hd]
    rcases urljoinL_abs_result b.toList x.toList hb hn with h1 | h1 | h1
    · have hu : (pyStartswith (urljoin b x) "http://"
          || pyStartswith (urljoin b x) "https://") = true := by
        have : pyStartswith (urljoin b x) "http://" = true := h1
        rw [this]
        rfl
      unfold download_image
      rw [if_neg (by simp [hu])]
    · have hu : (pyStartswith (urljoin b x) "http://"
          || pyStartswith (urljoin b x) "https://") = true := by
        have : pyStartswith (urljoin b x) "https://" = true := h1
        rw [this, Bool.or_true]
      unfold download_image
      rw [if_neg (by simp [hu])]
    · have hux : urljoin b x = x := by
        unfold urljoin
        rw [h1]
        exact rfl
      rw [hux, hd]
      exact hux

/-- Witness for C7: the pipeline's own example base and candidate. -/
theorem C7_witness :
    (pyStartswith "http://site.com/dir/page.html" "http://" = true
      ∨ pyStartswith "http://site.com/dir/page.html" "https://" = true)
    ∧ (urlparseL ("http://site.com/dir/page.html" : String).toList []).netloc ≠ []
    ∧ download_image (download_image "pic.png" "http://site.com/dir/page.html")
        "http://site.com/dir/page.html"
      = download_image "pic.png" "http://site.com/dir/page.html" :=
  ⟨Or.inl (by decide), by decide,
   C7_normalize_idempotent "pic.png" "http://site.com/dir/page.html"
     (Or.inl (by decide)) (by decide)⟩
